import Mathlib

/-!
Verification of the ClassyC object runtime (ClassyC.h).

The library is a set of C macros that generate, for each user class, a struct
type (nested anonymous structs, root-first), a structural constructor
`ClassyC_<Class>_constructor`, a user constructor
`ClassyC_<Class>_user_constructor(bool is_base, ...)`, destructors, per-slot
method pointers, interface cast functions and event slots.  We embed the
macro-generated code shallowly: a class chain is a list of class descriptions
(leaf first, the last element inherits from the built-in OBJECT class), an
instance is a record of association lists (one entry per struct member), and
the generated functions become Lean functions on that record.  Machine
pointers are modelled by member names (an address inside the single instance
is identified by the member it points to); NULL pointers by `Option`.  Each
run also produces a trace of the primitive actions the generated code
performs, so that statements such as "nothing further runs" or "the mutex is
initialized once" can be expressed.
-/

namespace ClassyC

/-- Member names (data members, methods, events, interfaces). -/
abbrev Name := String

/-- Association-list write, modelling an assignment through a struct member:
the entry for the key is overwritten in place, or appended if absent. -/
def setA {α : Type} (k : Name) (v : α) : List (Name × α) → List (Name × α)
  | [] => [(k, v)]
  | (k2, v2) :: rest => if k2 = k then (k, v) :: rest else (k2, v2) :: setA k v rest

/-- Association-list read, modelling a struct member read. -/
def getA {α : Type} (k : Name) : List (Name × α) → Option α
  | [] => none
  | (k2, v) :: rest => if k2 = k then some v else getA k rest

/-- Repeated `setA` of the same value for a list of keys.  This is the shape
of both `SET_METHOD_PTR` (one assignment per Method/Override entry) and
`WRITE_REGISTER_INTERFACE_CAST_FUNCTION` (one assignment per Interface
entry) expanded over an x-macro list. -/
def setEach {α : Type} (v : α) (names : List Name) (s : List (Name × α)) : List (Name × α) :=
  names.foldl (fun acc n => setA n v acc) s

/-- Sequence of field assignments `self->f = v;`. -/
def applyAssigns (as : List (Name × Int)) (fs : List (Name × Int)) : List (Name × Int) :=
  as.foldl (fun acc p => setA p.1 p.2 acc) fs

/-- Declared members of one user class, from the
`CLASS_class_name(Base, Interface, Data, Event, Method, Override)` x-macro
(the Base entry is represented by the position in the chain list). -/
structure ClassSpec where
  interfaces : List Name
  datas      : List Name
  events     : List Name
  methods    : List Name
  overrides  : List Name
deriving Repr, DecidableEq

/-- Body of a class's CONSTRUCTOR macro.  Per the library documentation a
body optionally invokes `INIT_BASE(...)` first, then performs member
assignments, some of them guarded by `if (!is_base)` (direct-construction
side effects). -/
structure CtorBody where
  callsInitBase : Bool
  initFields    : List (Name × Int)
  directOnly    : List (Name × Int)
deriving Repr, DecidableEq

/-- A user class: declared members plus its constructor body. -/
structure CClass where
  spec : ClassSpec
  body : CtorBody
deriving Repr, DecidableEq

/-- An inheritance chain, leaf (most derived) first; the last listed class
inherits from OBJECT.  The class at position `i` from the end has level
`i + 1`; OBJECT is level `0`. -/
abbrev Chain := List CClass

/-- Handlers are identified by the function `EVENT_HANDLER` generates; we
model the function by an identifier. -/
abbrev HandlerId := Nat

/-- One ClassyC instance: each struct member becomes an association-list
entry.  `destructorPtr` is the `_destructor` function pointer installed by
OBJECT and overwritten along the chain (`some lvl` points to the destructor
of the class at level `lvl`; `none` is NULL).  `slots` are the per-method
function pointers (the level of the class whose implementation is stored),
`casts` the `to_Interface` function pointers, `events` the event handler
slots, `fields` the data members (absent entry = zeroed memory).
`mutexInitCount` counts `CLASSYC_MUTEX_INIT` calls; `mutexAlive` tracks
init/destroy.  `cleanups` records, in execution order, the level of every
user DESTRUCTOR body that has run, and `raised` logs every event handler
invocation with its arguments. -/
structure Instance where
  destructorPtr  : Option Nat
  slots          : List (Name × Nat)
  casts          : List (Name × Nat)
  events         : List (Name × HandlerId)
  fields         : List (Name × Int)
  mutexInitCount : Nat
  mutexAlive     : Bool
  cleanups       : List Nat
  raised         : List (HandlerId × List Int)
deriving Repr, DecidableEq

/-- The zeroed memory `calloc` / the `memset` in NEW_INPLACE produce. -/
def zeroInstance : Instance :=
  { destructorPtr := none, slots := [], casts := [], events := [], fields := []
    mutexInitCount := 0, mutexAlive := false, cleanups := [], raised := [] }

/-- Primitive actions the generated constructor code performs, recorded in
execution order. -/
inductive Ev where
  | depthFail
  | allocDone
  | allocFail
  | setDtor (level : Nat)
  | setSlot (level : Nat) (m : Name)
  | regCast (level : Nat) (i : Name)
  | mtxInit (level : Nat)
  | userBody (level : Nat) (isBase : Bool)
  | directCode (level : Nat)
deriving Repr, DecidableEq

/-- Decide whether an action is a `CLASSYC_MUTEX_INIT` call. -/
def isMtxInit : Ev → Bool
  | Ev.mtxInit _ => true
  | _ => false

/-- GET_INHERITANCE_LEVEL: the macros `INHERITANCE_LEVEL_9` down to
`INHERITANCE_LEVEL_1` emit `+ 1` per visited class, visiting the class, its
ancestors, and finally OBJECT, but `INHERITANCE_LEVEL_1` does not recurse
into its argument's base, so the count saturates: the result is the number of
classes in the chain including OBJECT, capped at 9. -/
def inheritanceLevel (chain : Chain) : Nat :=
  min (chain.length + 1) 9

/-- All interfaces implemented along a chain, root-first, as collected by
`RECURSIVE_REGISTER_INTERFACE_CAST_FUNCTIONS` (base classes first). -/
def interfacesOf : Chain → List Name
  | [] => []
  | c :: rest => interfacesOf rest ++ c.spec.interfaces

/-- ClassyC_OBJECT_constructor: sets the `_destructor` pointer to
`ClassyC_OBJECT_destructor` (level 0) and nothing else. -/
def OBJECT_constructor (self : Instance) : Instance :=
  { self with destructorPtr := some 0 }

/-- State change by one class's structural installer (the statements of
`ClassyC_<Class>_constructor` after the base-constructor call): overwrite the
`_destructor` pointer, install this class's Method and Override slots,
register `to_Interface` pointers for every interface in the chain (all
pointing at this class's cast functions), and run `CLASSYC_MUTEX_INIT`. -/
def ctorStep (c : CClass) (rest : Chain) (s : Instance) : Instance :=
  { s with
    destructorPtr := some (rest.length + 1)
    slots := setEach (rest.length + 1) (c.spec.methods ++ c.spec.overrides) s.slots
    casts := setEach (rest.length + 1) (interfacesOf (c :: rest)) s.casts
    mutexInitCount := s.mutexInitCount + 1
    mutexAlive := true }

/-- Trace of one class's structural installer, in statement order. -/
def ctorStepTr (c : CClass) (rest : Chain) : List Ev :=
  Ev.setDtor (rest.length + 1) ::
    ((c.spec.methods ++ c.spec.overrides).map (Ev.setSlot (rest.length + 1)) ++
     (interfacesOf (c :: rest)).map (Ev.regCast (rest.length + 1)) ++
     [Ev.mtxInit (rest.length + 1)])

/-- ClassyC_<Class>_constructor.  In order: the runtime inheritance-depth
check (CLASSYC_CHECK_INHERITANCE_DEPTH prints and returns NULL when the
computed depth exceeds 9); if `self_void` is NULL, `calloc` zeroed memory
(`a` tells whether the allocation succeeds) and return NULL on failure;
recursively run the base class's structural constructor on the same memory;
then this class's installer.  The empty chain case is
ClassyC_OBJECT_constructor. -/
def classConstructor (a : Bool) : Chain → Option Instance → Option Instance × List Ev
  | [], selfOpt => (selfOpt.map OBJECT_constructor, [])
  | c :: rest, selfOpt =>
    if inheritanceLevel (c :: rest) > 9 then (none, [Ev.depthFail])
    else
      match selfOpt with
      | some self =>
        let base := classConstructor a rest (some self)
        (some (ctorStep c rest (base.1.getD self)), base.2 ++ ctorStepTr c rest)
      | none =>
        if a then
          let base := classConstructor a rest (some zeroInstance)
          (some (ctorStep c rest (base.1.getD zeroInstance)),
           Ev.allocDone :: (base.2 ++ ctorStepTr c rest))
        else (none, [Ev.allocFail])

/-- ClassyC_<Class>_user_constructor(is_base, self_void, ...).  When
`is_base` is false it first runs the structural constructor (allocating when
`self_void` is NULL) and returns NULL on failure before any user code; then
the CONSTRUCTOR body runs: optionally `INIT_BASE` (the base class's user
constructor with `is_base` true on the same memory), the body's member
assignments, and finally the assignments guarded by `if (!is_base)`.  The
empty chain case is ClassyC_OBJECT_user_constructor, which only returns
`self_void`. -/
def userConstructor (a : Bool) : Chain → Bool → Option Instance → Option Instance × List Ev
  | [], _, selfOpt => (selfOpt, [])
  | c :: rest, isBase, selfOpt =>
    match (if isBase then (selfOpt, ([] : List Ev))
           else classConstructor a (c :: rest) selfOpt) with
    | (none, tr) => (none, tr)
    | (some self, tr0) =>
      let ib :=
        if c.body.callsInitBase then
          let r := userConstructor a rest true (some self)
          (r.1.getD self, r.2)
        else (self, ([] : List Ev))
      let s2 := { ib.1 with fields := applyAssigns c.body.initFields ib.1.fields }
      if isBase then
        (some s2, tr0 ++ Ev.userBody (rest.length + 1) true :: ib.2)
      else
        (some { s2 with fields := applyAssigns c.body.directOnly s2.fields },
         tr0 ++ Ev.userBody (rest.length + 1) false :: (ib.2 ++ [Ev.directCode (rest.length + 1)]))

/-- NEW_ALLOC: call the user constructor with `is_base` false and a NULL
target; `a` models whether `calloc` succeeds. -/
def NEW_ALLOC (chain : Chain) (a : Bool) : Option Instance × List Ev :=
  userConstructor a chain false none

/-- NEW_INPLACE: `memset` the caller-supplied memory to zero, then call the
user constructor with `is_base` false on that address (no allocation is
attempted, so the allocator flag is irrelevant). -/
def NEW_INPLACE (chain : Chain) : Option Instance × List Ev :=
  userConstructor true chain false (some zeroInstance)

/-- ClassyC_<Class>_user_destructor(is_base, self_void): return immediately
on NULL; otherwise run this class's DESTRUCTOR body (recorded by appending
the class's level to `cleanups`), then (END_DESTRUCTOR) call the base
class's user destructor with `is_base` true and set the `_destructor`
pointer to NULL.  The empty chain case is ClassyC_OBJECT_user_destructor,
which does nothing. -/
def userDestructor : Chain → Bool → Option Instance → Option Instance
  | [], _, selfOpt => selfOpt
  | _c :: rest, _isBase, selfOpt =>
    match selfOpt with
    | none => none
    | some self =>
      let s1 := { self with cleanups := self.cleanups ++ [rest.length + 1] }
      let s2 := (userDestructor rest true (some s1)).getD s1
      some { s2 with destructorPtr := none }

/-- ClassyC_<Class>_destructor: if `self` is NULL or the `_destructor`
pointer is already NULL, return with no effect; otherwise run the user
destructor with `is_base` false and then `CLASSYC_MUTEX_DESTROY`. -/
def classDestructor (chain : Chain) (selfOpt : Option Instance) : Option Instance :=
  match selfOpt with
  | none => none
  | some self =>
    if self.destructorPtr = none then some self
    else
      let s1 := (userDestructor chain false (some self)).getD self
      some { s1 with mutexAlive := false }

/-- Calling an instance through its stored `_destructor` pointer: a NULL
pointer is never called by the DESTROY macros; `some lvl` dispatches to the
destructor of the class at level `lvl` of the chain (the chain with the
classes above `lvl` dropped). -/
def dispatchDestructor (chain : Chain) (self : Instance) : Instance :=
  match self.destructorPtr with
  | none => self
  | some lvl => (classDestructor (chain.drop (chain.length - lvl)) (some self)).getD self

/-- DESTROY(object): `if (object._destructor) object._destructor(&object);`
destruction through the stored pointer, guarded on the marker; memory is not
released. -/
def DESTROY (chain : Chain) (self : Instance) : Instance :=
  if self.destructorPtr = none then self else dispatchDestructor chain self

/-- The caller-side state DESTROY_FREE operates on: the caller's pointer
variable (`none` models a NULL pointer, `some` holds the pointee) and the
running count of `free` calls issued. -/
structure HeapState where
  var       : Option Instance
  freeCalls : Nat
deriving Repr, DecidableEq

/-- DESTROY_FREE(obj): `if ((obj) && ((obj)->_destructor)) { call the stored
destructor; free(obj); obj = NULL; }` — otherwise nothing at all happens. -/
def DESTROY_FREE (chain : Chain) (st : HeapState) : HeapState :=
  match st.var with
  | none => st
  | some self =>
    if self.destructorPtr = none then st
    else
      let _discard := dispatchDestructor chain self
      { var := none, freeCalls := st.freeCalls + 1 }

/-- REGISTER_EVENT(class, event, handler, instance): the single statement
`instance->event = handler_function;`, an unconditional overwrite. -/
def REGISTER_EVENT (e : Name) (h : HandlerId) (self : Instance) : Instance :=
  { self with events := setA e h self.events }

/-- RAISE_EVENT(instance, event, args): `if (instance->event)
instance->event((void *)instance, args);` — a no-op on a NULL slot,
otherwise an invocation of the stored handler with the instance as receiver
(recorded in the instance's invocation log). -/
def RAISE_EVENT (e : Name) (args : List Int) (self : Instance) : Instance :=
  match getA e self.events with
  | none => self
  | some h => { self with raised := self.raised ++ [(h, args)] }

/-- An interface declaration: the `I_interface_name(Data, Event, Method)`
x-macro. -/
structure InterfaceDecl where
  idatas   : List Name
  ievents  : List Name
  imethods : List Name
deriving Repr, DecidableEq

/-- The interface struct built by a `<Class>_to_<Interface>` cast function.
Per WRITE_I_DATA_MEMBER_INITIALIZER each data member is the address
`&self->member` (modelled by the member's name — the location inside the
instance, not its value); per WRITE_I_EVENT_MEMBER_INITIALIZER each event
member is the address of the event slot itself (`&self->event`, again a
location); per WRITE_I_METHOD_PTR_INITIALIZER each method pointer is a copy
of the slot's current value.  The `self` back-reference is the aliased
instance and is passed separately to the operations below. -/
structure Projection where
  dataPtrs   : List Name
  eventPtrs  : List Name
  methodVals : List (Name × Option Nat)
deriving Repr, DecidableEq

/-- The `to_InterfaceName` cast function (WRITE_INTERFACE_CAST_FUNCTION). -/
def toInterface (i : InterfaceDecl) (self : Instance) : Projection :=
  { dataPtrs := i.idatas
    eventPtrs := i.ievents
    methodVals := i.imethods.map (fun m => (m, getA m self.slots)) }

/-- Read the current value of a data member of the aliased instance through
an interface struct's data pointer (`*proj.member`).  `self` is the current
state of the memory the pointer aliases. -/
def projRead (self : Instance) (p : Projection) (f : Name) : Option Int :=
  if f ∈ p.dataPtrs then some ((getA f self.fields).getD 0) else none

/-- Write a data member of the aliased instance through an interface
struct's data pointer (`*proj.member = v`). -/
def projWrite (self : Instance) (p : Projection) (f : Name) (v : Int) : Instance :=
  if f ∈ p.dataPtrs then { self with fields := setA f v self.fields } else self

/-- RAISE_INTERFACE_EVENT(interface_struct, event, args):
`if (s.event && (*s.event)) (*s.event)(s.self, args);` — the outer check is
on the pointer to the slot, the inner dereference reads the slot's current
contents in the aliased instance. -/
def RAISE_INTERFACE_EVENT (self : Instance) (p : Projection) (e : Name)
    (args : List Int) : Instance :=
  if e ∈ p.eventPtrs then
    match getA e self.events with
    | none => self
    | some h => { self with raised := self.raised ++ [(h, args)] }
  else self

/-- Direct read of a data member (`object->member`); absent entries read the
zeroed memory. -/
def fieldVal (self : Instance) (f : Name) : Int :=
  (getA f self.fields).getD 0

/-- Direct write of a data member (`object->member = v;`). -/
def setField (self : Instance) (f : Name) (v : Int) : Instance :=
  { self with fields := setA f v self.fields }

/-- Member list of the OBJECT struct: the `_destructor` pointer and the
mutex. -/
def objectMembers : List Name :=
  ["_destructor", "mutex"]

/-- Members a class contributes to the struct layout
(WRITE_CLASS_STRUCT_NESTED_MEMBERS): interface cast-function pointers, data
members, event slots, and method pointers for Method entries (Override
entries do not redeclare the inherited member). -/
def structMembers (c : CClass) : List Name :=
  c.spec.interfaces.map (fun i => "to_" ++ i) ++ c.spec.datas ++
    c.spec.events ++ c.spec.methods

/-- Concatenation of member groups. -/
def flat : List (List Name) → List Name
  | [] => []
  | l :: ls => l ++ flat ls

/-- Struct layout of a class, root-first, as generated by
RECURSIVE_CLASS_MEMBER_DECLARATIONS: OBJECT's members innermost, then each
ancestor's members, then the class's own.  The recursive macros stop at
RECURSIVE_CLASS_MEMBER_DECLARATION_9, so only the 10 classes nearest the
leaf are emitted: members of deeper ancestors (OBJECT included) are silently
dropped from the struct. -/
def layout (chain : Chain) : List Name :=
  flat ((objectMembers :: chain.reverse.map structMembers).drop (chain.length + 1 - 10))

/-- Byte-order position of a member inside a layout (each member one cell). -/
def offsetOf (f : Name) : List Name → Nat
  | [] => 0
  | m :: rest => if m = f then 0 else offsetOf f rest + 1

/-- The level of the most derived class in the chain that declares or
overrides a method, i.e. the implementation the spec calls most derived. -/
def mostDerivedLevel (m : Name) : Chain → Option Nat
  | [] => none
  | c :: rest =>
    if m ∈ c.spec.methods ++ c.spec.overrides then some (rest.length + 1)
    else mostDerivedLevel m rest

/-- Descending list of chain levels `[n, n-1, ..., 1]`: the order in which
the user destructor bodies run (most derived first). -/
def levelsDesc : Nat → List Nat
  | 0 => []
  | n + 1 => (n + 1) :: levelsDesc n

/-! Concrete classes used as evaluation inputs, following the sample program
(classyc_sample.c): `Vehicle` inherits from OBJECT, implements `Moveable`,
and `Car` inherits from `Vehicle`, overriding `move`; its CONSTRUCTOR calls
`INIT_BASE()`. -/

def vehicleClass : CClass :=
  ⟨⟨["Moveable"], ["id", "position"], ["on_move"], ["move", "estimate_price"], []⟩,
   ⟨false, [("position", 0)], [("id", 7)]⟩⟩

def carClass : CClass :=
  ⟨⟨[], ["km_since_last_fuel"], ["on_need_fuel"], ["park"], ["move"]⟩,
   ⟨true, [("km_since_last_fuel", 0)], []⟩⟩

def carChain : Chain := [carClass, vehicleClass]

def moveableI : InterfaceDecl := ⟨["position"], ["on_move"], ["move"]⟩

/-- The instance NEW_INPLACE builds for the Car chain (checked by
evaluation in the witnesses below). -/
def carInstance : Instance :=
  { destructorPtr := some 2
    slots := [("move", 2), ("estimate_price", 1), ("park", 2)]
    casts := [("Moveable", 2)]
    events := []
    fields := [("position", 0), ("km_since_last_fuel", 0)]
    mutexInitCount := 2
    mutexAlive := true
    cleanups := []
    raised := [] }

def tinyClass : CClass := ⟨⟨[], [], [], [], []⟩, ⟨false, [], []⟩⟩

/-- A hierarchy of ten user classes above OBJECT: eleven nodes, beyond both
the 9-level limit and the 10-node budget of the member-declaration macros. -/
def deepChain : Chain := List.replicate 10 tinyClass

/-! Basic lemmas about the association-list operations. -/

theorem getA_setA_self {α : Type} (k : Name) (v : α) (s : List (Name × α)) :
    getA k (setA k v s) = some v := by
  induction s with
  | nil => simp [setA, getA]
  | cons p rest ih =>
    by_cases h : p.1 = k
    · simp [setA, getA, h]
    · simp [setA, getA, h, ih]

theorem getA_setA_ne {α : Type} (k k2 : Name) (h : k2 ≠ k) (v : α) (s : List (Name × α)) :
    getA k2 (setA k v s) = getA k2 s := by
  induction s with
  | nil => simp [setA, getA, Ne.symm h]
  | cons p rest ih =>
    by_cases hp : p.1 = k
    · subst hp
      simp [setA, getA, Ne.symm h]
    · simp [setA, getA, hp, ih]

theorem getA_setEach {α : Type} (v : α) (names : List Name) (s : List (Name × α)) (m : Name) :
    getA m (setEach v names s) = if m ∈ names then some v else getA m s := by
  induction names generalizing s with
  | nil => simp [setEach]
  | cons n ns ih =>
    have step : setEach v (n :: ns) s = setEach v ns (setA n v s) := rfl
    rw [step, ih]
    by_cases hm : m ∈ ns
    · simp [hm, List.mem_cons]
    · by_cases he : m = n
      · subst he
        simp [hm, getA_setA_self]
      · simp [hm, he, List.mem_cons, getA_setA_ne n m he v s]

theorem getA_applyAssigns (as : List (Name × Int)) (fs : List (Name × Int)) (f : Name)
    (h : f ∉ as.map Prod.fst) : getA f (applyAssigns as fs) = getA f fs := by
  induction as generalizing fs with
  | nil => simp [applyAssigns]
  | cons p ps ih =>
    have step : applyAssigns (p :: ps) fs = applyAssigns ps (setA p.1 p.2 fs) := rfl
    rw [step]
    simp only [List.map_cons, List.mem_cons] at h
    push_neg at h
    rw [ih _ h.2, getA_setA_ne p.1 f h.1]

/-! The runtime depth check is dead code: the counting macros saturate. -/

theorem inheritanceLevel_le_nine (chain : Chain) : inheritanceLevel chain ≤ 9 :=
  Nat.min_le_right _ _

theorem depth_guard_false (c : CClass) (rest : Chain) :
    ¬ inheritanceLevel (c :: rest) > 9 :=
  Nat.not_lt.2 (inheritanceLevel_le_nine _)

/-! Unfolding equations for the constructor functions (the depth guard is
rewritten away using its falsity). -/

theorem classConstructor_cons_some (a : Bool) (c : CClass) (rest : Chain) (self : Instance) :
    classConstructor a (c :: rest) (some self) =
      (some (ctorStep c rest (((classConstructor a rest (some self)).1).getD self)),
       (classConstructor a rest (some self)).2 ++ ctorStepTr c rest) := by
  show (if inheritanceLevel (c :: rest) > 9 then (none, [Ev.depthFail])
        else
          (some (ctorStep c rest (((classConstructor a rest (some self)).1).getD self)),
           (classConstructor a rest (some self)).2 ++ ctorStepTr c rest)) = _
  rw [if_neg (depth_guard_false c rest)]

theorem classConstructor_cons_alloc (c : CClass) (rest : Chain) :
    classConstructor true (c :: rest) none =
      (some (ctorStep c rest (((classConstructor true rest (some zeroInstance)).1).getD zeroInstance)),
       Ev.allocDone :: ((classConstructor true rest (some zeroInstance)).2 ++ ctorStepTr c rest)) := by
  show (if inheritanceLevel (c :: rest) > 9 then (none, [Ev.depthFail])
        else
          (some (ctorStep c rest (((classConstructor true rest (some zeroInstance)).1).getD zeroInstance)),
           Ev.allocDone :: ((classConstructor true rest (some zeroInstance)).2 ++ ctorStepTr c rest))) = _
  rw [if_neg (depth_guard_false c rest)]

theorem classConstructor_cons_allocFail (c : CClass) (rest : Chain) :
    classConstructor false (c :: rest) none = (none, [Ev.allocFail]) := by
  show (if inheritanceLevel (c :: rest) > 9 then (none, [Ev.depthFail])
        else (none, [Ev.allocFail])) = _
  rw [if_neg (depth_guard_false c rest)]

theorem userConstructor_cons_base_no (a : Bool) (c : CClass) (rest : Chain) (self : Instance)
    (hc : c.body.callsInitBase = false) :
    userConstructor a (c :: rest) true (some self) =
      (some { self with fields := applyAssigns c.body.initFields self.fields },
       [Ev.userBody (rest.length + 1) true]) := by
  simp [userConstructor, hc]

theorem userConstructor_cons_base_ib (a : Bool) (c : CClass) (rest : Chain) (self : Instance)
    (sB : Instance) (trB : List Ev)
    (hc : c.body.callsInitBase = true)
    (hr : userConstructor a rest true (some self) = (some sB, trB)) :
    userConstructor a (c :: rest) true (some self) =
      (some { sB with fields := applyAssigns c.body.initFields sB.fields },
       Ev.userBody (rest.length + 1) true :: trB) := by
  simp [userConstructor, hc, hr]

theorem userConstructor_cons_direct_fail (a : Bool) (c : CClass) (rest : Chain)
    (selfOpt : Option Instance) (tr : List Ev)
    (h : classConstructor a (c :: rest) selfOpt = (none, tr)) :
    userConstructor a (c :: rest) false selfOpt = (none, tr) := by
  simp [userConstructor, h]

theorem userConstructor_cons_direct_no (a : Bool) (c : CClass) (rest : Chain)
    (selfOpt : Option Instance) (s0 : Instance) (trS : List Ev)
    (hc : c.body.callsInitBase = false)
    (h : classConstructor a (c :: rest) selfOpt = (some s0, trS)) :
    userConstructor a (c :: rest) false selfOpt =
      (some { s0 with fields := applyAssigns c.body.directOnly (applyAssigns c.body.initFields s0.fields) },
       trS ++ Ev.userBody (rest.length + 1) false :: [Ev.directCode (rest.length + 1)]) := by
  simp [userConstructor, hc, h]

theorem userConstructor_cons_direct_ib (a : Bool) (c : CClass) (rest : Chain)
    (selfOpt : Option Instance) (s0 sB : Instance) (trS trB : List Ev)
    (hc : c.body.callsInitBase = true)
    (h : classConstructor a (c :: rest) selfOpt = (some s0, trS))
    (hr : userConstructor a rest true (some s0) = (some sB, trB)) :
    userConstructor a (c :: rest) false selfOpt =
      (some { sB with fields := applyAssigns c.body.directOnly (applyAssigns c.body.initFields sB.fields) },
       trS ++ Ev.userBody (rest.length + 1) false :: (trB ++ [Ev.directCode (rest.length + 1)])) := by
  simp [userConstructor, hc, h, hr]

/-! Facts about the per-level installer trace. -/

theorem countP_isMtxInit_map_setSlot (lvl : Nat) (ms : List Name) :
    ((ms.map (Ev.setSlot lvl)).countP isMtxInit) = 0 := by
  rw [List.countP_eq_zero]
  intro e he
  obtain ⟨m, -, rfl⟩ := List.mem_map.1 he
  simp [isMtxInit]

theorem countP_isMtxInit_map_regCast (lvl : Nat) (is : List Name) :
    ((is.map (Ev.regCast lvl)).countP isMtxInit) = 0 := by
  rw [List.countP_eq_zero]
  intro e he
  obtain ⟨m, -, rfl⟩ := List.mem_map.1 he
  simp [isMtxInit]

theorem ctorStepTr_countP (c : CClass) (rest : Chain) :
    (ctorStepTr c rest).countP isMtxInit = 1 := by
  simp only [ctorStepTr, List.countP_cons, List.countP_append,
        countP_isMtxInit_map_setSlot, countP_isMtxInit_map_regCast]
  simp [isMtxInit, List.countP_cons]

theorem userBody_not_mem_ctorStepTr (c : CClass) (rest : Chain) (l : Nat) (b : Bool) :
    Ev.userBody l b ∉ ctorStepTr c rest := by
  simp [ctorStepTr]

theorem directCode_not_mem_ctorStepTr (c : CClass) (rest : Chain) (l : Nat) :
    Ev.directCode l ∉ ctorStepTr c rest := by
  simp [ctorStepTr]

theorem ctorStepTr_split (c : CClass) (rest : Chain) :
    ctorStepTr c rest =
      (Ev.setDtor (rest.length + 1) ::
        ((c.spec.methods ++ c.spec.overrides).map (Ev.setSlot (rest.length + 1)) ++
         (interfacesOf (c :: rest)).map (Ev.regCast (rest.length + 1)))) ++
      [Ev.mtxInit (rest.length + 1)] := by
  simp [ctorStepTr]

/-- Full behaviour of `ClassyC_<Class>_constructor` on non-NULL memory,
proved by walking the ancestor chain: it always returns the same memory,
every method slot ends at the most derived implementation, data members and
event slots are untouched, the `_destructor` pointer ends at the most
derived class, the mutex is initialized once per class of the chain, no user
constructor code runs, and for a nonempty chain the trace ends with the
leaf's `CLASSYC_MUTEX_INIT`, after every slot installation. -/
theorem classConstructor_spec (a : Bool) (chain : Chain) (self : Instance) :
    ∃ s tr, classConstructor a chain (some self) = (some s, tr)
      ∧ (∀ m l, mostDerivedLevel m chain = some l → getA m s.slots = some l)
      ∧ (∀ m, mostDerivedLevel m chain = none → getA m s.slots = getA m self.slots)
      ∧ s.fields = self.fields
      ∧ s.events = self.events
      ∧ s.cleanups = self.cleanups
      ∧ s.raised = self.raised
      ∧ s.destructorPtr = some chain.length
      ∧ s.mutexInitCount = self.mutexInitCount + chain.length
      ∧ tr.countP isMtxInit = chain.length
      ∧ (∀ l b, Ev.userBody l b ∉ tr)
      ∧ (∀ l, Ev.directCode l ∉ tr)
      ∧ (chain = [] → tr = [])
      ∧ (∀ c2 rest2, chain = c2 :: rest2 →
          ∃ t, tr = t ++ [Ev.mtxInit chain.length]
            ∧ ∀ l m, Ev.setSlot l m ∈ tr → Ev.setSlot l m ∈ t) := by
  induction chain generalizing self with
  | nil =>
    refine ⟨OBJECT_constructor self, [], rfl, ?_, ?_, rfl, rfl, rfl, rfl, rfl, rfl, rfl,
      by simp, by simp, fun _ => rfl, ?_⟩
    · intro m l hml
      simp [mostDerivedLevel] at hml
    · intro m _
      rfl
    · intro c2 rest2 h
      cases h
  | cons c rest ih =>
    obtain ⟨s1, tr1, heq, hsome, hnone, hf, he, hcl, hra, hd, hmc, hcnt, hub, hdc, -, -⟩ := ih self
    refine ⟨ctorStep c rest s1, tr1 ++ ctorStepTr c rest, ?_, ?_, ?_, ?_, ?_, ?_, ?_, ?_, ?_, ?_,
      ?_, ?_, ?_, ?_⟩
    · rw [classConstructor_cons_some, heq]
      rfl
    · intro m l hml
      simp only [mostDerivedLevel] at hml
      by_cases hm2 : m ∈ c.spec.methods ++ c.spec.overrides
      · rw [if_pos hm2] at hml
        cases hml
        simp [ctorStep, getA_setEach, hm2]
      · rw [if_neg hm2] at hml
        simp [ctorStep, getA_setEach, hm2, hsome m l hml]
    · intro m hml
      simp only [mostDerivedLevel] at hml
      by_cases hm2 : m ∈ c.spec.methods ++ c.spec.overrides
      · rw [if_pos hm2] at hml
        cases hml
      · rw [if_neg hm2] at hml
        simp [ctorStep, getA_setEach, hm2, hnone m hml]
    · simp [ctorStep, hf]
    · simp [ctorStep, he]
    · simp [ctorStep, hcl]
    · simp [ctorStep, hra]
    · simp [ctorStep]
    · simp [ctorStep, hmc]
      omega
    · simp [List.countP_append, hcnt, ctorStepTr_countP]
    · intro l b
      simp only [List.mem_append]
      push_neg
      exact ⟨hub l b, userBody_not_mem_ctorStepTr c rest l b⟩
    · intro l
      simp only [List.mem_append]
      push_neg
      exact ⟨hdc l, directCode_not_mem_ctorStepTr c rest l⟩
    · intro h
      cases h
    · intro c2 rest2 h
      refine ⟨tr1 ++ (Ev.setDtor (rest.length + 1) ::
        ((c.spec.methods ++ c.spec.overrides).map (Ev.setSlot (rest.length + 1)) ++
         (interfacesOf (c :: rest)).map (Ev.regCast (rest.length + 1)))), ?_, ?_⟩
      · rw [ctorStepTr_split]
        simp [List.append_assoc]
      · intro l m hm
        rcases List.mem_append.1 hm with h1 | h2
        · exact List.mem_append.2 (Or.inl h1)
        · refine List.mem_append.2 (Or.inr ?_)
          rw [ctorStepTr_split] at h2
          rcases List.mem_append.1 h2 with h3 | h4
          · exact h3
          · simp at h4

/-- Full behaviour of `ClassyC_<Class>_user_constructor` when called with
`is_base` true (as `INIT_BASE` does): the structural constructor is skipped
entirely, so nothing is allocated and the dispatch slots, interface cast
pointers, `_destructor` pointer, mutex, event slots and logs are all left
untouched; only the chain's user initialization code runs (with the
`is_base` flag true throughout), and the trace starts with this class's
body. -/
theorem userConstructor_base_spec (a : Bool) (chain : Chain) (self : Instance) :
    ∃ s tr, userConstructor a chain true (some self) = (some s, tr)
      ∧ s.slots = self.slots
      ∧ s.casts = self.casts
      ∧ s.destructorPtr = self.destructorPtr
      ∧ s.mutexInitCount = self.mutexInitCount
      ∧ s.mutexAlive = self.mutexAlive
      ∧ s.events = self.events
      ∧ s.cleanups = self.cleanups
      ∧ s.raised = self.raised
      ∧ (∀ e ∈ tr, ∃ l, e = Ev.userBody l true)
      ∧ (∀ c2 rest2, chain = c2 :: rest2 →
          ∃ t2, tr = Ev.userBody chain.length true :: t2) := by
  induction chain generalizing self with
  | nil =>
    exact ⟨self, [], rfl, rfl, rfl, rfl, rfl, rfl, rfl, rfl, rfl, by simp,
      fun c2 rest2 h => by cases h⟩
  | cons c rest ih =>
    cases hc : c.body.callsInitBase with
    | false =>
      refine ⟨{ self with fields := applyAssigns c.body.initFields self.fields },
        [Ev.userBody (rest.length + 1) true],
        userConstructor_cons_base_no a c rest self hc,
        rfl, rfl, rfl, rfl, rfl, rfl, rfl, rfl, by simp, ?_⟩
      intro c2 rest2 h
      exact ⟨[], by simp⟩
    | true =>
      obtain ⟨sB, trB, hr, h1, h2, h3, h4, h5, h6, h7, h8, h9, -⟩ := ih self
      refine ⟨{ sB with fields := applyAssigns c.body.initFields sB.fields },
        Ev.userBody (rest.length + 1) true :: trB,
        userConstructor_cons_base_ib a c rest self sB trB hc hr,
        h1, h2, h3, h4, h5, h6, h7, h8, ?_, ?_⟩
      · intro e he
        rcases List.mem_cons.1 he with h10 | h10
        · exact ⟨rest.length + 1, h10⟩
        · exact h9 e h10
      · intro c2 rest2 h
        exact ⟨trB, rfl⟩

/-- Decomposition of a direct construction (`NEW_INPLACE`): the structural
constructor runs on the zeroed memory, then the leaf's CONSTRUCTOR body:
optionally `INIT_BASE` (the base chain's user constructors with `is_base`
true), the body's assignments and the `!is_base`-guarded assignments. -/
theorem newInplace_decomp (c : CClass) (rest : Chain) :
    ∃ s0 trS sB trB,
      classConstructor true (c :: rest) (some zeroInstance) = (some s0, trS)
      ∧ ((c.body.callsInitBase = true
            ∧ userConstructor true rest true (some s0) = (some sB, trB))
         ∨ (c.body.callsInitBase = false ∧ sB = s0 ∧ trB = []))
      ∧ NEW_INPLACE (c :: rest) =
          (some { sB with fields :=
                    applyAssigns c.body.directOnly (applyAssigns c.body.initFields sB.fields) },
           trS ++ Ev.userBody (rest.length + 1) false :: (trB ++ [Ev.directCode (rest.length + 1)])) := by
  obtain ⟨s0, trS, heq, -⟩ := classConstructor_spec true (c :: rest) zeroInstance
  cases hc : c.body.callsInitBase with
  | false =>
    refine ⟨s0, trS, s0, [], heq, Or.inr ⟨rfl, rfl, rfl⟩, ?_⟩
    rw [NEW_INPLACE, userConstructor_cons_direct_no true c rest (some zeroInstance) s0 trS hc heq]
    rfl
  | true =>
    obtain ⟨sB, trB, hr, -⟩ := userConstructor_base_spec true rest s0
    refine ⟨s0, trS, sB, trB, heq, Or.inl ⟨rfl, hr⟩, ?_⟩
    rw [NEW_INPLACE, userConstructor_cons_direct_ib true c rest (some zeroInstance) s0 sB trS trB hc heq hr]

/-- `NEW_ALLOC` with a succeeding allocation behaves exactly like
`NEW_INPLACE` on fresh zeroed memory, with the allocation logged first. -/
theorem newAlloc_eq_newInplace (c : CClass) (rest : Chain) :
    NEW_ALLOC (c :: rest) true =
      ((NEW_INPLACE (c :: rest)).1, Ev.allocDone :: (NEW_INPLACE (c :: rest)).2) := by
  obtain ⟨s0, trS, heq, -⟩ := classConstructor_spec true (c :: rest) zeroInstance
  have halloc : classConstructor true (c :: rest) none = (some s0, Ev.allocDone :: trS) := by
    rw [classConstructor_cons_some] at heq
    injection heq with h1 h2
    injection h1 with h1
    rw [classConstructor_cons_alloc, h1, h2]
  cases hc : c.body.callsInitBase with
  | false =>
    rw [NEW_ALLOC, userConstructor_cons_direct_no true c rest none s0 (Ev.allocDone :: trS) hc halloc,
        NEW_INPLACE, userConstructor_cons_direct_no true c rest (some zeroInstance) s0 trS hc heq]
    rfl
  | true =>
    obtain ⟨sB, trB, hr, -⟩ := userConstructor_base_spec true rest s0
    rw [NEW_ALLOC, userConstructor_cons_direct_ib true c rest none s0 sB (Ev.allocDone :: trS) trB hc halloc hr,
        NEW_INPLACE, userConstructor_cons_direct_ib true c rest (some zeroInstance) s0 sB trS trB hc heq hr]
    rfl

/-! Destructor pipeline lemmas. -/

theorem userDestructor_cons (c : CClass) (rest : Chain) (b : Bool) (self : Instance) :
    userDestructor (c :: rest) b (some self) =
      some { ((userDestructor rest true
                (some { self with cleanups := self.cleanups ++ [rest.length + 1] })).getD
                { self with cleanups := self.cleanups ++ [rest.length + 1] })
             with destructorPtr := none } := rfl

theorem userDestructor_some (chain : Chain) (b : Bool) (self : Instance) :
    userDestructor chain b (some self) =
      some { self with cleanups := self.cleanups ++ levelsDesc chain.length
                       destructorPtr := if chain = [] then self.destructorPtr else none } := by
  induction chain generalizing b self with
  | nil => simp [userDestructor, levelsDesc]
  | cons c rest ih =>
    rw [userDestructor_cons, ih]
    by_cases hr : rest = []
    · subst hr
      simp [levelsDesc]
    · simp [hr, levelsDesc, List.append_assoc]

theorem classDestructor_live (chain : Chain) (self : Instance)
    (h : self.destructorPtr ≠ none) :
    classDestructor chain (some self) =
      some { self with cleanups := self.cleanups ++ levelsDesc chain.length
                       destructorPtr := if chain = [] then self.destructorPtr else none
                       mutexAlive := false } := by
  show (if self.destructorPtr = none then some self
        else
          some { ((userDestructor chain false (some self)).getD self) with mutexAlive := false }) = _
  rw [if_neg h, userDestructor_some]
  rfl

theorem classDestructor_dead (chain : Chain) (self : Instance)
    (h : self.destructorPtr = none) :
    classDestructor chain (some self) = some self := by
  show (if self.destructorPtr = none then some self
        else
          some { ((userDestructor chain false (some self)).getD self) with mutexAlive := false }) = _
  rw [if_pos h]

theorem count_levelsDesc (n l : Nat) :
    (levelsDesc n).count l = if 1 ≤ l ∧ l ≤ n then 1 else 0 := by
  induction n with
  | zero =>
    rw [levelsDesc, if_neg (by omega : ¬(1 ≤ l ∧ l ≤ 0))]
    rfl
  | succ k ih =>
    rw [levelsDesc, List.count_cons, ih]
    by_cases he : l = k + 1
    · subst he
      rw [if_neg (by omega : ¬(1 ≤ k + 1 ∧ k + 1 ≤ k)),
          if_pos (by omega : 1 ≤ k + 1 ∧ k + 1 ≤ k + 1)]
      simp
    · have hb : ((k + 1 : Nat) == l) = false := by
        simp
        omega
      rw [hb]
      by_cases h1 : 1 ≤ l ∧ l ≤ k
      · rw [if_pos h1, if_pos (by omega : 1 ≤ l ∧ l ≤ k + 1)]
        simp
      · rw [if_neg h1, if_neg (by omega : ¬(1 ≤ l ∧ l ≤ k + 1))]
        simp

/-! Layout lemmas: ancestor views are prefixes (as long as the chain fits in
the 10-node budget of the recursive member-declaration macros). -/

theorem flat_append (a b : List (List Name)) : flat (a ++ b) = flat a ++ flat b := by
  induction a with
  | nil => rfl
  | cons x xs ih => simp [flat, ih]

theorem layout_of_le (chain : Chain) (h : chain.length ≤ 9) :
    layout chain = objectMembers ++ flat (chain.reverse.map structMembers) := by
  have hz : chain.length + 1 - 10 = 0 := by omega
  rw [layout, hz, List.drop_zero]
  rfl

theorem layout_drop_leading (chain : Chain) (i : Nat) (h : chain.length ≤ 9) :
    ∃ t, layout chain = layout (chain.drop i) ++ t := by
  have hd : (chain.drop i).length ≤ 9 := by
    rw [List.length_drop]
    omega
  refine ⟨flat ((chain.take i).reverse.map structMembers), ?_⟩
  rw [layout_of_le chain h, layout_of_le (chain.drop i) hd]
  have hsplit : chain.reverse = (chain.drop i).reverse ++ (chain.take i).reverse := by
    rw [← List.reverse_append, List.take_append_drop]
  rw [hsplit, List.map_append, flat_append, List.append_assoc]

theorem offsetOf_append (f : Name) (l1 l2 : List Name) (h : f ∈ l1) :
    offsetOf f (l1 ++ l2) = offsetOf f l1 := by
  induction l1 with
  | nil => cases h
  | cons x xs ih =>
    by_cases hx : x = f
    · simp [offsetOf, hx]
    · rcases List.mem_cons.1 h with h1 | h1
      · exact absurd h1.symm hx
      · simp [offsetOf, hx, ih h1]

theorem mostDerivedLevel_drop (m : Name) (chain : Chain) (i : Nat) (l : Nat)
    (h : mostDerivedLevel m (chain.drop i) = some l) :
    ∃ l2, mostDerivedLevel m chain = some l2 := by
  induction chain generalizing i with
  | nil =>
    rw [List.drop_nil] at h
    cases h
  | cons c rest ih =>
    cases i with
    | zero => exact ⟨l, h⟩
    | succ j =>
      rw [List.drop_succ_cons] at h
      obtain ⟨l2, h2⟩ := ih j h
      by_cases hm : m ∈ c.spec.methods ++ c.spec.overrides
      · exact ⟨rest.length + 1, by simp [mostDerivedLevel, hm]⟩
      · exact ⟨l2, by simp [mostDerivedLevel, hm, h2]⟩

/-- Consolidated state of a freshly constructed instance. -/
theorem newInplace_state (c : CClass) (rest : Chain) :
    ∃ s tr, NEW_INPLACE (c :: rest) = (some s, tr)
      ∧ (∀ m l, mostDerivedLevel m (c :: rest) = some l → getA m s.slots = some l)
      ∧ (∀ m, mostDerivedLevel m (c :: rest) = none → getA m s.slots = none)
      ∧ s.destructorPtr = some (rest.length + 1)
      ∧ s.cleanups = []
      ∧ s.events = []
      ∧ s.mutexInitCount = rest.length + 1 := by
  obtain ⟨s0, trS, heq, hsome, hnone, hf, he, hcl, hra, hd, hmc, -⟩ :=
    classConstructor_spec true (c :: rest) zeroInstance
  cases hc : c.body.callsInitBase with
  | false =>
    refine ⟨_, _,
      by rw [NEW_INPLACE, userConstructor_cons_direct_no true c rest (some zeroInstance) s0 trS hc heq],
      ?_, ?_, ?_, ?_, ?_, ?_⟩
    · intro m l hml
      exact hsome m l hml
    · intro m hml
      exact hnone m hml
    · rw [hd]
      rfl
    · rw [hcl]
      rfl
    · rw [he]
      rfl
    · rw [hmc]
      simp [zeroInstance]
  | true =>
    obtain ⟨sB, trB, hr, hs1, hs2, hs3, hs4, hs5, hs6, hs7, hs8, -, -⟩ :=
      userConstructor_base_spec true rest s0
    refine ⟨_, _,
      by rw [NEW_INPLACE, userConstructor_cons_direct_ib true c rest (some zeroInstance) s0 sB trS trB hc heq hr],
      ?_, ?_, ?_, ?_, ?_, ?_⟩
    · intro m l hml
      show getA m sB.slots = some l
      rw [hs1]
      exact hsome m l hml
    · intro m hml
      show getA m sB.slots = none
      rw [hs1]
      exact hnone m hml
    · show sB.destructorPtr = _
      rw [hs3, hd]
      rfl
    · show sB.cleanups = []
      rw [hs7, hcl]
      rfl
    · show sB.events = []
      rw [hs6, he]
      rfl
    · show sB.mutexInitCount = _
      rw [hs4, hmc]
      simp [zeroInstance]

/-! Claim theorems. -/

/-- C1: for every class C whose chain fits the member-declaration macros (at
most 9 user classes — deeper chains drop struct members and do not build),
and every ancestor view (drop `i` leaf classes): the ancestor layout is a
prefix of C's layout, every member visible in the ancestor cast sits at the
same offset (hence identical field values read through every cast, since all
casts address the same memory), and once NEW_INPLACE or NEW_ALLOC returns a
live instance every method slot visible through any ancestor cast holds the
most derived implementation of the whole chain — so a call through any cast
invokes that implementation. -/
theorem C1_casts_expose_most_derived (chain : Chain) (i : Nat) (m f : Name)
    (h9 : chain.length ≤ 9) :
    (∃ t, layout chain = layout (chain.drop i) ++ t)
    ∧ (f ∈ layout (chain.drop i) →
        offsetOf f (layout (chain.drop i)) = offsetOf f (layout chain))
    ∧ (∀ s, (NEW_INPLACE chain).1 = some s →
        ∀ l, mostDerivedLevel m (chain.drop i) = some l →
          getA m s.slots = mostDerivedLevel m chain)
    ∧ (∀ s, (NEW_ALLOC chain true).1 = some s →
        ∀ l, mostDerivedLevel m (chain.drop i) = some l →
          getA m s.slots = mostDerivedLevel m chain) := by
  have hkey : ∀ s, (NEW_INPLACE chain).1 = some s →
      ∀ l, mostDerivedLevel m (chain.drop i) = some l →
        getA m s.slots = mostDerivedLevel m chain := by
    cases chain with
    | nil =>
      intro s hs l hl
      rw [List.drop_nil] at hl
      simp [mostDerivedLevel] at hl
    | cons c rest =>
      intro s hs l hl
      obtain ⟨l2, hl2⟩ := mostDerivedLevel_drop m (c :: rest) i l hl
      obtain ⟨s2, tr2, heq2, hsome2, -⟩ := newInplace_state c rest
      rw [heq2] at hs
      injection hs with hs
      rw [← hs, hl2]
      exact hsome2 m l2 hl2
  refine ⟨layout_drop_leading chain i h9, ?_, hkey, ?_⟩
  · intro hf
    obtain ⟨t, ht⟩ := layout_drop_leading chain i h9
    rw [ht]
    exact (offsetOf_append f _ t hf).symm
  · cases chain with
    | nil =>
      intro s hs l hl
      rw [List.drop_nil] at hl
      simp [mostDerivedLevel] at hl
    | cons c rest =>
      intro s hs l hl
      rw [newAlloc_eq_newInplace] at hs
      exact hkey s hs l hl

theorem C1_witness :
    carChain.length ≤ 9
    ∧ (∃ t, layout carChain = layout (carChain.drop 1) ++ t)
    ∧ offsetOf "position" (layout (carChain.drop 1)) = offsetOf "position" (layout carChain)
    ∧ getA "move" carInstance.slots = mostDerivedLevel "move" carChain :=
  ⟨by decide,
   (C1_casts_expose_most_derived carChain 1 "move" "position" (by decide)).1,
   (C1_casts_expose_most_derived carChain 1 "move" "position" (by decide)).2.1 (by decide),
   (C1_casts_expose_most_derived carChain 1 "move" "position" (by decide)).2.2.1 carInstance
     (by decide) 1 (by decide)⟩

/-- C2: destruction is idempotent.  For every constructed instance, one
destruction runs the user cleanup of each class of the chain exactly once
(most-derived first) and clears the `_destructor` marker; a second call —
through the DESTROY macro, through the `ClassyC_<Class>_destructor` function
itself, or through DESTROY_FREE — sees the cleared marker and returns with
no effect on the instance. -/
theorem C2_destruction_idempotent (c : CClass) (rest : Chain) :
    ∀ s, (NEW_INPLACE (c :: rest)).1 = some s →
      (DESTROY (c :: rest) s).cleanups = levelsDesc (rest.length + 1)
      ∧ (∀ l, 1 ≤ l → l ≤ rest.length + 1 → ((DESTROY (c :: rest) s).cleanups.count l = 1))
      ∧ (DESTROY (c :: rest) s).destructorPtr = none
      ∧ DESTROY (c :: rest) (DESTROY (c :: rest) s) = DESTROY (c :: rest) s
      ∧ classDestructor (c :: rest) (some (DESTROY (c :: rest) s)) = some (DESTROY (c :: rest) s)
      ∧ DESTROY_FREE (c :: rest) ⟨some (DESTROY (c :: rest) s), 0⟩
          = ⟨some (DESTROY (c :: rest) s), 0⟩ := by
  intro s hs
  obtain ⟨s2, tr2, heq2, -, -, hd, hcl, -⟩ := newInplace_state c rest
  rw [heq2] at hs
  injection hs with hs
  subst hs
  have hne : s2.destructorPtr ≠ none := by
    rw [hd]
    exact Option.some_ne_none _
  have hdestroy : DESTROY (c :: rest) s2 =
      { s2 with cleanups := s2.cleanups ++ levelsDesc (rest.length + 1)
                destructorPtr := none
                mutexAlive := false } := by
    rw [DESTROY, if_neg hne, dispatchDestructor]
    rw [hd]
    show (classDestructor ((c :: rest).drop ((c :: rest).length - (rest.length + 1))) (some s2)).getD s2 = _
    have hdrop : (c :: rest).drop ((c :: rest).length - (rest.length + 1)) = c :: rest := by
      have hz : (c :: rest).length - (rest.length + 1) = 0 := by
        simp [List.length_cons]
      rw [hz, List.drop_zero]
    rw [hdrop, classDestructor_live (c :: rest) s2 hne]
    simp [List.cons_ne_nil]
  rw [hdestroy]
  refine ⟨by rw [hcl]; rfl, ?_, rfl, ?_, ?_, ?_⟩
  · intro l h1 h2
    rw [hcl]
    show (levelsDesc (rest.length + 1)).count l = 1
    rw [count_levelsDesc, if_pos ⟨h1, h2⟩]
  · rw [DESTROY]
    rw [if_pos rfl]
  · exact classDestructor_dead (c :: rest) _ rfl
  · rw [DESTROY_FREE]
    simp

theorem C2_witness :
    (NEW_INPLACE carChain).1 = some carInstance
    ∧ (DESTROY carChain carInstance).cleanups = levelsDesc 2
    ∧ (DESTROY carChain carInstance).cleanups.count 2 = 1
    ∧ (DESTROY carChain carInstance).cleanups.count 1 = 1
    ∧ (DESTROY carChain carInstance).destructorPtr = none
    ∧ DESTROY carChain (DESTROY carChain carInstance) = DESTROY carChain carInstance
    ∧ classDestructor carChain (some (DESTROY carChain carInstance))
        = some (DESTROY carChain carInstance)
    ∧ DESTROY_FREE carChain ⟨some (DESTROY carChain carInstance), 0⟩
        = ⟨some (DESTROY carChain carInstance), 0⟩ :=
  ⟨by decide,
   (C2_destruction_idempotent carClass [vehicleClass] carInstance (by decide)).1,
   (C2_destruction_idempotent carClass [vehicleClass] carInstance (by decide)).2.1 2
     (by decide) (by decide),
   (C2_destruction_idempotent carClass [vehicleClass] carInstance (by decide)).2.1 1
     (by decide) (by decide),
   (C2_destruction_idempotent carClass [vehicleClass] carInstance (by decide)).2.2.1,
   (C2_destruction_idempotent carClass [vehicleClass] carInstance (by decide)).2.2.2.1,
   (C2_destruction_idempotent carClass [vehicleClass] carInstance (by decide)).2.2.2.2.1,
   (C2_destruction_idempotent carClass [vehicleClass] carInstance (by decide)).2.2.2.2.2⟩

/-- C3: when the heap allocation of NEW_ALLOC fails, the constructor
returns NULL to the caller, and the recorded trace is exactly the failed
allocation: no structural installation and no user initialization code runs
after the failure, and no object is handed to the caller. -/
theorem C3_alloc_failure (c : CClass) (rest : Chain) :
    NEW_ALLOC (c :: rest) false = (none, [Ev.allocFail]) := by
  rw [NEW_ALLOC, userConstructor_cons_direct_fail false c rest none [Ev.allocFail]
      (classConstructor_cons_allocFail c rest)]

theorem C3_witness : NEW_ALLOC carChain false = (none, [Ev.allocFail]) :=
  C3_alloc_failure carClass [vehicleClass]

/-- C4: an interface projection aliases the instance.  Its data pointers,
dereferenced, always equal the instance's current field values — including
after the instance is mutated post-projection — and mutating through the
projection mutates the instance itself; its event members point at the
instance's event slot, so a handler registered on the instance after the
projection was built is still visible and firable through the projection. -/
theorem C4_projection_aliases (i : InterfaceDecl) (s : Instance) (f e : Name)
    (v : Int) (h : HandlerId) (args : List Int) :
    (f ∈ i.idatas →
       projRead (setField s f v) (toInterface i s) f = some v
       ∧ projWrite s (toInterface i s) f v = setField s f v
       ∧ (∀ s2 : Instance, projRead s2 (toInterface i s) f = some (fieldVal s2 f)))
    ∧ (e ∈ i.ievents →
       RAISE_INTERFACE_EVENT (REGISTER_EVENT e h s) (toInterface i s) e args
         = RAISE_EVENT e args (REGISTER_EVENT e h s)) := by
  constructor
  · intro hf
    refine ⟨?_, ?_, ?_⟩
    · simp [projRead, toInterface, hf, setField, getA_setA_self]
    · simp [projWrite, toInterface, hf, setField]
    · intro s2
      simp [projRead, toInterface, hf, fieldVal]
  · intro he
    simp [RAISE_INTERFACE_EVENT, toInterface, he, RAISE_EVENT, REGISTER_EVENT]

theorem C4_witness :
    projRead (setField zeroInstance "position" 9) (toInterface moveableI zeroInstance) "position"
      = some 9
    ∧ projWrite zeroInstance (toInterface moveableI zeroInstance) "position" 9
        = setField zeroInstance "position" 9
    ∧ RAISE_INTERFACE_EVENT (REGISTER_EVENT "on_move" 5 zeroInstance)
        (toInterface moveableI zeroInstance) "on_move" [42]
      = RAISE_EVENT "on_move" [42] (REGISTER_EVENT "on_move" 5 zeroInstance) :=
  ⟨((C4_projection_aliases moveableI zeroInstance "position" "on_move" 9 5 [42]).1
      (by decide)).1,
   ((C4_projection_aliases moveableI zeroInstance "position" "on_move" 9 5 [42]).1
      (by decide)).2.1,
   (C4_projection_aliases moveableI zeroInstance "position" "on_move" 9 5 [42]).2
      (by decide)⟩

/-- C5: REGISTER_EVENT unconditionally overwrites the slot with no error;
raising with no handler registered is a no-op, and raising otherwise invokes
exactly the most recently registered handler with the instance as receiver
and the given arguments; interface-projected firing behaves identically to
direct firing. -/
theorem C5_event_semantics (s s2 : Instance) (e : Name) (h1 h2 : HandlerId)
    (args : List Int) (i : InterfaceDecl) :
    (getA e s.events = none → RAISE_EVENT e args s = s)
    ∧ getA e (REGISTER_EVENT e h2 (REGISTER_EVENT e h1 s)).events = some h2
    ∧ RAISE_EVENT e args (REGISTER_EVENT e h2 (REGISTER_EVENT e h1 s))
        = { REGISTER_EVENT e h2 (REGISTER_EVENT e h1 s) with
            raised := (REGISTER_EVENT e h2 (REGISTER_EVENT e h1 s)).raised ++ [(h2, args)] }
    ∧ (e ∈ i.ievents →
        RAISE_INTERFACE_EVENT s2 (toInterface i s) e args = RAISE_EVENT e args s2) := by
  refine ⟨?_, ?_, ?_, ?_⟩
  · intro h
    simp [RAISE_EVENT, h]
  · simp [REGISTER_EVENT, getA_setA_self]
  · simp [RAISE_EVENT, REGISTER_EVENT, getA_setA_self]
  · intro he
    simp only [RAISE_INTERFACE_EVENT, toInterface, RAISE_EVENT]
    rw [if_pos he]

theorem C5_witness :
    RAISE_EVENT "on_move" [9] zeroInstance = zeroInstance
    ∧ getA "on_move" (REGISTER_EVENT "on_move" 2 (REGISTER_EVENT "on_move" 1 zeroInstance)).events
        = some 2
    ∧ RAISE_EVENT "on_move" [9] (REGISTER_EVENT "on_move" 2 (REGISTER_EVENT "on_move" 1 zeroInstance))
        = { REGISTER_EVENT "on_move" 2 (REGISTER_EVENT "on_move" 1 zeroInstance) with
            raised := (REGISTER_EVENT "on_move" 2 (REGISTER_EVENT "on_move" 1 zeroInstance)).raised
              ++ [(2, [9])] }
    ∧ RAISE_INTERFACE_EVENT zeroInstance (toInterface moveableI zeroInstance) "on_move" [9]
        = RAISE_EVENT "on_move" [9] zeroInstance :=
  ⟨(C5_event_semantics zeroInstance zeroInstance "on_move" 1 2 [9] moveableI).1 rfl,
   (C5_event_semantics zeroInstance zeroInstance "on_move" 1 2 [9] moveableI).2.1,
   (C5_event_semantics zeroInstance zeroInstance "on_move" 1 2 [9] moveableI).2.2.1,
   (C5_event_semantics zeroInstance zeroInstance "on_move" 1 2 [9] moveableI).2.2.2 (by decide)⟩

/-- The runtime depth diagnostic can never be reached: no run of any
structural constructor ever records it. -/
theorem depthFail_not_mem_ctorStepTr (c : CClass) (rest : Chain) :
    Ev.depthFail ∉ ctorStepTr c rest := by
  simp [ctorStepTr]

theorem depthFail_never (a : Bool) (chain : Chain) (selfOpt : Option Instance) :
    Ev.depthFail ∉ (classConstructor a chain selfOpt).2 := by
  induction chain generalizing selfOpt with
  | nil => simp [classConstructor]
  | cons c rest ih =>
    cases selfOpt with
    | some self =>
      rw [classConstructor_cons_some]
      simp only [List.mem_append]
      push_neg
      exact ⟨ih (some self), depthFail_not_mem_ctorStepTr c rest⟩
    | none =>
      cases a with
      | true =>
        rw [classConstructor_cons_alloc]
        simp only [List.mem_cons, List.mem_append]
        push_neg
        refine ⟨by simp, ih (some zeroInstance), depthFail_not_mem_ctorStepTr c rest⟩
      | false =>
        rw [classConstructor_cons_allocFail]
        simp

/-- C6: INIT_BASE semantics.  For a derived class (chain `c :: b :: rest2`):
if its CONSTRUCTOR body never invokes INIT_BASE, no ancestor user
initializer runs (the only user body in the trace is the leaf's own, with
is_base false) and every ancestor-declared field the leaf does not itself
assign stays at its zeroed state; if it does invoke INIT_BASE, the immediate
ancestor's initializer runs with is_base true, and no `!is_base`-guarded
code of any ancestor level runs. -/
theorem C6_init_base_semantics (c b : CClass) (rest2 : Chain) (f : Name) :
    (c.body.callsInitBase = false →
       (∀ l bb, Ev.userBody l bb ∈ (NEW_INPLACE (c :: b :: rest2)).2 →
          l = rest2.length + 2 ∧ bb = false)
       ∧ ((∃ d ∈ b :: rest2, f ∈ d.spec.datas) →
           f ∉ (c.body.initFields ++ c.body.directOnly).map Prod.fst →
           ∀ s, (NEW_INPLACE (c :: b :: rest2)).1 = some s → fieldVal s f = 0))
    ∧ (c.body.callsInitBase = true →
       Ev.userBody (rest2.length + 1) true ∈ (NEW_INPLACE (c :: b :: rest2)).2
       ∧ (∀ l, l ≤ rest2.length + 1 → Ev.directCode l ∉ (NEW_INPLACE (c :: b :: rest2)).2)) := by
  obtain ⟨s0, trS, heq, hsome, hnone, hf0, he0, hcl0, hra0, hd0, hmc0, hcnt0, hub0, hdc0, -, -⟩ :=
    classConstructor_spec true (c :: b :: rest2) zeroInstance
  constructor
  · intro hc
    have heqN : NEW_INPLACE (c :: b :: rest2) =
        (some { s0 with fields := applyAssigns c.body.directOnly (applyAssigns c.body.initFields s0.fields) },
         trS ++ Ev.userBody ((b :: rest2).length + 1) false :: [Ev.directCode ((b :: rest2).length + 1)]) :=
      userConstructor_cons_direct_no true c (b :: rest2) (some zeroInstance) s0 trS hc heq
    constructor
    · intro l bb hmem
      rw [heqN] at hmem
      rcases List.mem_append.1 hmem with h1 | h1
      · exact absurd h1 (hub0 l bb)
      · rcases List.mem_cons.1 h1 with h2 | h2
        · injection h2 with ha hb
          exact ⟨by rw [ha]; simp [List.length_cons], hb⟩
        · simp at h2
    · intro hdata hnot s hs
      rw [heqN] at hs
      injection hs with hs
      rw [List.map_append] at hnot
      simp only [List.mem_append] at hnot
      push_neg at hnot
      rw [fieldVal, ← hs]
      show (getA f (applyAssigns c.body.directOnly (applyAssigns c.body.initFields s0.fields))).getD 0 = 0
      rw [getA_applyAssigns _ _ _ hnot.2, getA_applyAssigns _ _ _ hnot.1, hf0]
      rfl
  · intro hc
    obtain ⟨sB, trB, hr, hb1, hb2, hb3, hb4, hb5, hb6, hb7, hb8, hall, hhead⟩ :=
      userConstructor_base_spec true (b :: rest2) s0
    obtain ⟨t2, ht2⟩ := hhead b rest2 rfl
    have heqN : NEW_INPLACE (c :: b :: rest2) =
        (some { sB with fields := applyAssigns c.body.directOnly (applyAssigns c.body.initFields sB.fields) },
         trS ++ Ev.userBody ((b :: rest2).length + 1) false :: (trB ++ [Ev.directCode ((b :: rest2).length + 1)])) :=
      userConstructor_cons_direct_ib true c (b :: rest2) (some zeroInstance) s0 sB trS trB hc heq hr
    constructor
    · rw [heqN]
      refine List.mem_append.2 (Or.inr ?_)
      refine List.mem_cons.2 (Or.inr ?_)
      refine List.mem_append.2 (Or.inl ?_)
      rw [ht2]
      exact List.mem_cons.2 (Or.inl (by simp [List.length_cons]))
    · intro l hl
      rw [heqN]
      intro hmem
      rcases List.mem_append.1 hmem with h1 | h1
      · exact absurd h1 (hdc0 l)
      · rcases List.mem_cons.1 h1 with h2 | h2
        · cases h2
        · rcases List.mem_append.1 h2 with h3 | h3
          · obtain ⟨l2, hl2⟩ := hall _ h3
            cases hl2
          · simp only [List.mem_singleton] at h3
            injection h3 with h3
            simp [List.length_cons] at h3
            omega

theorem C6_witness :
    Ev.userBody 1 true ∈ (NEW_INPLACE carChain).2
    ∧ Ev.directCode 1 ∉ (NEW_INPLACE carChain).2 :=
  ⟨((C6_init_base_semantics carClass vehicleClass [] "id").2 rfl).1,
   ((C6_init_base_semantics carClass vehicleClass [] "id").2 rfl).2 1 (by decide)⟩

/-- C7 (code bug): the claim says a chain deeper than the 9-level limit is
rejected by the runtime check in the constructor (diagnostic plus NULL
return).  In the code, GET_INHERITANCE_LEVEL saturates at 9, so the `> 9`
guard in CLASSYC_CHECK_INHERITANCE_DEPTH can never fire - on a chain of ten
user classes the computed depth is 9, construction proceeds and returns a
non-NULL object, the diagnostic is unreachable in every run, and the layout
macros have silently dropped the deepest members (here OBJECT's
`_destructor` slot) instead of failing the construction. -/
theorem C7_runtime_depth_check_dead :
    (∀ chain : Chain, inheritanceLevel chain ≤ 9)
    ∧ inheritanceLevel deepChain = 9
    ∧ (NEW_ALLOC deepChain true).1.isSome = true
    ∧ (∀ a chain selfOpt, Ev.depthFail ∉ (classConstructor a chain selfOpt).2)
    ∧ (layout deepChain).elem "_destructor" = false :=
  ⟨inheritanceLevel_le_nine, by decide, by decide,
   fun a chain selfOpt => depthFail_never a chain selfOpt, by decide⟩

theorem C7_witness :
    inheritanceLevel deepChain = 9 ∧ (NEW_ALLOC deepChain true).1.isSome = true :=
  ⟨C7_runtime_depth_check_dead.2.1, C7_runtime_depth_check_dead.2.2.1⟩

/-- C8 counterexample: constructing a Car (a chain of just two classes) runs
CLASSYC_MUTEX_INIT twice — once in each class's structural constructor — so
the mutex is not initialized exactly once per construction. -/
theorem C8_counterexample :
    ((NEW_INPLACE carChain).2.countP isMtxInit) = 2
    ∧ ((NEW_INPLACE carChain).2.countP isMtxInit) ≠ 1 := by
  refine ⟨by decide, by decide⟩

/-- C8 amended: the lock handle is initialized once per class of the chain
(each class's structural installer runs CLASSYC_MUTEX_INIT after installing
its own dispatch slots), not once per construction at the root; the final
initialization, performed by the most derived class, does come after the
full dispatch-slot table is installed: every slot installation precedes the
last CLASSYC_MUTEX_INIT of the construction. -/
theorem C8_amended_mutex_per_class (c : CClass) (rest : Chain) :
    ((NEW_INPLACE (c :: rest)).2.countP isMtxInit) = rest.length + 1
    ∧ ∃ t u, (NEW_INPLACE (c :: rest)).2 = t ++ Ev.mtxInit (rest.length + 1) :: u
        ∧ (∀ l m, Ev.setSlot l m ∈ (NEW_INPLACE (c :: rest)).2 → Ev.setSlot l m ∈ t)
        ∧ u.countP isMtxInit = 0 := by
  obtain ⟨s0, trS, heq, hsome, hnone, hf0, he0, hcl0, hra0, hd0, hmc0, hcnt0, hub0, hdc0, -, hlast⟩ :=
    classConstructor_spec true (c :: rest) zeroInstance
  obtain ⟨t, htr, hsl⟩ := hlast c rest rfl
  cases hc : c.body.callsInitBase with
  | false =>
    have heqN : NEW_INPLACE (c :: rest) =
        (some { s0 with fields := applyAssigns c.body.directOnly (applyAssigns c.body.initFields s0.fields) },
         trS ++ Ev.userBody (rest.length + 1) false :: [Ev.directCode (rest.length + 1)]) :=
      userConstructor_cons_direct_no true c rest (some zeroInstance) s0 trS hc heq
    rw [heqN]
    constructor
    · rw [List.countP_append, hcnt0]
      simp [isMtxInit, List.countP_cons, List.length_cons]
    · refine ⟨t, Ev.userBody (rest.length + 1) false :: [Ev.directCode (rest.length + 1)], ?_, ?_, ?_⟩
      · rw [htr]
        simp [List.append_assoc, List.length_cons]
      · intro l m hm
        rcases List.mem_append.1 hm with h1 | h1
        · have h2 := hsl l m h1
          exact h2
        · simp at h1
      · simp [List.countP_cons, isMtxInit]
  | true =>
    obtain ⟨sB, trB, hr, hb1, hb2, hb3, hb4, hb5, hb6, hb7, hb8, hall, -⟩ :=
      userConstructor_base_spec true rest s0
    have heqN : NEW_INPLACE (c :: rest) =
        (some { sB with fields := applyAssigns c.body.directOnly (applyAssigns c.body.initFields sB.fields) },
         trS ++ Ev.userBody (rest.length + 1) false :: (trB ++ [Ev.directCode (rest.length + 1)])) :=
      userConstructor_cons_direct_ib true c rest (some zeroInstance) s0 sB trS trB hc heq hr
    rw [heqN]
    have htrB : trB.countP isMtxInit = 0 := by
      rw [List.countP_eq_zero]
      intro e he
      obtain ⟨l, hl⟩ := hall e he
      rw [hl]
      simp [isMtxInit]
    constructor
    · rw [List.countP_append, hcnt0, List.countP_cons, List.countP_append, htrB]
      simp [isMtxInit, List.countP_cons, List.length_cons]
    · refine ⟨t, Ev.userBody (rest.length + 1) false :: (trB ++ [Ev.directCode (rest.length + 1)]), ?_, ?_, ?_⟩
      · rw [htr]
        simp [List.append_assoc, List.length_cons]
      · intro l m hm
        rcases List.mem_append.1 hm with h1 | h1
        · exact hsl l m h1
        · rcases List.mem_cons.1 h1 with h2 | h2
          · cases h2
          · rcases List.mem_append.1 h2 with h3 | h3
            · obtain ⟨l2, hl2⟩ := hall _ h3
              cases hl2
            · simp at h3
      · rw [List.countP_cons, List.countP_append, htrB]
        simp [isMtxInit, List.countP_cons]

theorem C8_witness :
    ((NEW_INPLACE carChain).2.countP isMtxInit) = 2
    ∧ ∃ t u, (NEW_INPLACE carChain).2 = t ++ Ev.mtxInit 2 :: u
        ∧ (∀ l m, Ev.setSlot l m ∈ (NEW_INPLACE carChain).2 → Ev.setSlot l m ∈ t)
        ∧ u.countP isMtxInit = 0 :=
  C8_amended_mutex_per_class carClass [vehicleClass]

/-- C9: DESTROY_FREE on an already destroyed heap object (its `_destructor`
marker is NULL) is a complete no-op: no cleanup runs, `free` is not called,
and the caller's pointer keeps its (dangling) non-NULL value; DESTROY_FREE
destroys, frees and nulls the pointer only when the marker is non-NULL. -/
theorem C9_destroy_free_guard (chain : Chain) (s : Instance) (n : Nat) :
    (s.destructorPtr = none →
       DESTROY_FREE chain ⟨some s, n⟩ = ⟨some s, n⟩)
    ∧ (s.destructorPtr ≠ none →
       (DESTROY_FREE chain ⟨some s, n⟩).var = none
       ∧ (DESTROY_FREE chain ⟨some s, n⟩).freeCalls = n + 1) := by
  constructor
  · intro h
    simp [DESTROY_FREE, h]
  · intro h
    simp [DESTROY_FREE, h]

theorem C9_witness :
    zeroInstance.destructorPtr = none
    ∧ DESTROY_FREE carChain ⟨some zeroInstance, 0⟩ = ⟨some zeroInstance, 0⟩
    ∧ (DESTROY_FREE carChain ⟨some (OBJECT_constructor zeroInstance), 0⟩).var = none
    ∧ (DESTROY_FREE carChain ⟨some (OBJECT_constructor zeroInstance), 0⟩).freeCalls = 1 :=
  ⟨rfl, (C9_destroy_free_guard carChain zeroInstance 0).1 rfl,
   ((C9_destroy_free_guard carChain (OBJECT_constructor zeroInstance) 0).2 (by decide)).1,
   ((C9_destroy_free_guard carChain (OBJECT_constructor zeroInstance) 0).2 (by decide)).2⟩

/-- C10: an ancestor-step constructor invocation (`is_base` true, the call
INIT_BASE makes) performs no allocation and leaves every dispatch slot,
every interface cast-function pointer, the `_destructor` pointer, the mutex
and the event slots unchanged: only user initialization code runs (every
trace entry is a user body with is_base true — structural installation
happens solely on the is_base-false path). -/
theorem C10_base_step_frame (a : Bool) (chain : Chain) (self : Instance) :
    ∃ s tr, userConstructor a chain true (some self) = (some s, tr)
      ∧ s.slots = self.slots
      ∧ s.casts = self.casts
      ∧ s.destructorPtr = self.destructorPtr
      ∧ s.mutexInitCount = self.mutexInitCount
      ∧ s.mutexAlive = self.mutexAlive
      ∧ s.events = self.events
      ∧ (∀ e ∈ tr, ∃ l, e = Ev.userBody l true) := by
  obtain ⟨s, tr, heq, h1, h2, h3, h4, h5, h6, h7, h8, h9, -⟩ :=
    userConstructor_base_spec a chain self
  exact ⟨s, tr, heq, h1, h2, h3, h4, h5, h6, h9⟩

theorem C10_witness :
    ∃ s tr, userConstructor true carChain true (some zeroInstance) = (some s, tr)
      ∧ s.slots = zeroInstance.slots
      ∧ s.casts = zeroInstance.casts
      ∧ s.destructorPtr = zeroInstance.destructorPtr
      ∧ s.mutexInitCount = zeroInstance.mutexInitCount
      ∧ s.mutexAlive = zeroInstance.mutexAlive
      ∧ s.events = zeroInstance.events
      ∧ (∀ e ∈ tr, ∃ l, e = Ev.userBody l true) :=
  C10_base_step_frame true carChain zeroInstance

end ClassyC
